import Mathlib

/-!
Verification of the conversion core of `app.py` (a Streamlit image/video
converter).  Python strings are embedded as `List Char`, byte streams as
`List Nat`, and external collaborators (the PIL decoder, the image encoder
write, the ffmpeg child process) as explicit oracle parameters, so that the
two core functions `convert_image` and `convert_video` are pure, executable
Lean functions whose control flow mirrors the Python source line by line.
-/

namespace App

/-- Python `str` values (filenames, format names) are embedded as lists of
characters; only the ASCII fragment is exercised by the program. -/
abbrev PyStr := List Char

/-- Association of the 26 ASCII uppercase letters with their lowercase
counterparts, used to embed Python `str.lower`/`str.upper` on the ASCII
fragment the program uses. -/
def asciiPairs : List (Char × Char) :=
  [('A','a'), ('B','b'), ('C','c'), ('D','d'), ('E','e'), ('F','f'),
   ('G','g'), ('H','h'), ('I','i'), ('J','j'), ('K','k'), ('L','l'),
   ('M','m'), ('N','n'), ('O','o'), ('P','p'), ('Q','q'), ('R','r'),
   ('S','s'), ('T','t'), ('U','u'), ('V','v'), ('W','w'), ('X','x'),
   ('Y','y'), ('Z','z')]

/-- ASCII lowercase of one character (identity off `A`-`Z`), embedding the
effect of Python `str.lower` on the program's ASCII data. -/
def lowerCh (c : Char) : Char :=
  ((asciiPairs.find? (fun p => p.1 = c)).map Prod.snd).getD c

/-- ASCII uppercase of one character (identity off `a`-`z`), embedding the
effect of Python `str.upper` on the program's ASCII data. -/
def upperCh (c : Char) : Char :=
  ((asciiPairs.find? (fun p => p.2 = c)).map Prod.fst).getD c

/-- Embedding of Python `str.lower` (ASCII fragment). -/
def pyLower (s : PyStr) : PyStr := s.map lowerCh

/-- Embedding of Python `str.upper` (ASCII fragment). -/
def pyUpper (s : PyStr) : PyStr := s.map upperCh

/-- Embedding of Python `str.rfind`: index of the last occurrence of `c`
in `p`, `-1` when absent. -/
def rfind (p : PyStr) (c : Char) : Int :=
  match p.reverse.findIdx? (fun a => a = c) with
  | none => -1
  | some i => (p.length : Int) - 1 - i

/-- Embedding of `posixpath.splitext` (`os.path.splitext` on the POSIX
platform the app runs on): split off the extension at the last dot of the
final path component, except when that component consists only of leading
dots. -/
def splitext (p : PyStr) : PyStr × PyStr :=
  let sepIndex := rfind p '/'
  let dotIndex := rfind p '.'
  if sepIndex < dotIndex then
    let filenamePart := (p.take dotIndex.toNat).drop (sepIndex + 1).toNat
    if filenamePart.any (fun a => decide (a ≠ '.')) then
      (p.take dotIndex.toNat, p.drop dotIndex.toNat)
    else (p, [])
  else (p, [])

/-- Python whitespace characters recognized by `str.split()`. -/
def isWS (c : Char) : Bool :=
  c = ' ' || c = '\t' || c = '\n' || c = '\r' || c = Char.ofNat 11 || c = Char.ofNat 12

/-- Characters kept by werkzeug's `_filename_ascii_strip_re`
(`[A-Za-z0-9_.-]`). -/
def allowedCh (c : Char) : Bool :=
  ('A' ≤ c && c ≤ 'Z') || ('a' ≤ c && c ≤ 'z') || ('0' ≤ c && c ≤ '9') ||
  c = '_' || c = '.' || c = '-'

/-- Embedding of Python `str.strip(chars)`: remove leading and trailing
characters drawn from `cs`. -/
def stripChars (cs : List Char) (s : PyStr) : PyStr :=
  ((s.dropWhile (fun c => cs.contains c)).reverse.dropWhile (fun c => cs.contains c)).reverse

/-- Embedding of `werkzeug.utils.secure_filename` on the ASCII fragment
(the NFKD-normalize-then-ASCII-encode step is the identity on ASCII input;
`os.sep` is `/` and `os.altsep` is `None` on the POSIX host, and the
Windows device-file special case is disabled since `os.name != "nt"`):
replace separators by spaces, join the whitespace-split words with `_`,
drop disallowed characters, and strip leading/trailing `.` and `_`. -/
def secure_filename (filename : PyStr) : PyStr :=
  let f1 := filename.map (fun c => if c = '/' then ' ' else c)
  let f2 := List.intercalate ['_'] ((List.splitOnP isWS f1).filter (fun w => !w.isEmpty))
  stripChars ['.', '_'] (f2.filter allowedCh)

/-- POSIX resolution of a path passed to `open`/`Image.save` against the
process's current working directory: absolute paths are used as given,
relative ones are resolved under `cwd`. -/
def resolvePath (cwd p : PyStr) : PyStr :=
  if p.head? = some '/' then p else cwd ++ '/' :: p

/-- Directory component of a path (everything before the last `/`),
matching `os.path.dirname` on paths that do contain a separator. -/
def dirOf (p : PyStr) : PyStr :=
  (((p.reverse).dropWhile (fun c => decide (c ≠ '/'))).drop 1).reverse

/-- The upload handed to the converters: a readable, seekable byte stream
(Streamlit's `UploadedFile`, an `io.BytesIO` subclass) with its full byte
content, current read position, and the declared filename. -/
structure UploadedFile where
  content : List Nat
  pos : Nat
  name : PyStr
deriving DecidableEq

/-- The decoded image object produced by `PIL.Image.open`: the fields the
program reads (pixel width, pixel height, color mode). -/
structure PILImage where
  width : Nat
  height : Nat
  mode : String
deriving DecidableEq

/-- The error taxonomy of the core: each constructor stands for one
`st.error` call site of `app.py` (the typed result the spec calls the
Failure variant).  `encodeFailed` carries the `stderr` attribute of the
caught `ffmpeg.Error`, which is `None` or captured text — `Option String`
here, matching the attribute the code interpolates at line 128. -/
inductive AppError where
  | emptyInput
  | fileTooLarge
  | dimensionTooLarge
  | unreadableImage
  | permissionDenied
  | conversionFailed (msg : String)
  | encodeFailed (stderr : Option String)
deriving DecidableEq

/-- The text displayed by line 128, `f"FFmpeg error: {e.stderr}"`: Python
renders the `None` of an uncaptured stderr as the literal string `None`. -/
def ffmpegErrorText : Option String → String
  | none => "FFmpeg error: None"
  | some s => "FFmpeg error: " ++ s

/-- Message of the `IsADirectoryError` raised by `open(path, "wb")` when
`path` names an existing directory (as `str(e)` renders it, up to the
quotes Python places around the filename); it reaches the user through the
`except Exception` handler of lines 130-132 as a ConversionFailed. -/
def isADirectoryMsg (path : PyStr) : String :=
  "[Errno 21] Is a directory: " ++ String.mk path

/-- The `img.save(output_filename, **save_params)` invocation: target path,
color mode of the image object being saved, and the explicit `quality`
parameter if one is passed. -/
structure SaveCall where
  path : PyStr
  mode : String
  quality : Option Nat
deriving DecidableEq

/-- Outcome of the `img.save` call, which is performed by the external PIL
encoder: success, `PermissionError`, or another exception with a message
(the two `except` clauses of `convert_image` that can fire at the save). -/
inductive SaveOutcome where
  | ok
  | permDenied
  | failMsg (m : String)
deriving DecidableEq

/-- Observable outcome of one `convert_image` call: the returned value
(`None` or the output filename), the `st.error` raised if any, whether
`Image.open` was reached, and the `img.save` call if one was issued. -/
structure ImageOutcome where
  result : Option PyStr
  err : Option AppError
  decodeAttempted : Bool
  saved : Option SaveCall
deriving DecidableEq

/-- The derived output filename of `convert_image`:
`f"{os.path.splitext(input_file.name)[0]}.{output_format.lower()}"`. -/
def derivedName (name fmt : PyStr) : PyStr :=
  (splitext name).1 ++ '.' :: pyLower fmt

/-- Color mode actually saved by `convert_image`: the decoded mode, except
that a non-RGB image is converted to RGB when the target format is JPEG
(lines 43-44 of `app.py`). -/
def imgSaveMode (fmt : PyStr) (mode : String) : String :=
  if pyUpper fmt = "JPEG".data ∧ mode ≠ "RGB" then "RGB" else mode

/-- The `save_params` dictionary of `convert_image` (lines 47-50): first set
to `quality 95` for JPEG targets, then overwritten to `quality 90` for WEBP
targets (else kept). -/
def imgQuality (fmt : PyStr) : Option Nat :=
  let q1 := if pyUpper fmt = "JPEG".data then some 95 else none
  if pyUpper fmt = "WEBP".data then some 90 else q1

/-- Embedding of `convert_image` (`app.py` lines 12-62).  `decode` is the
PIL `Image.open` oracle on the stream's bytes (`none` embeds
`UnidentifiedImageError`), `saveRes` the outcome of the external `img.save`
write.  The Python truth test `if not input_file` is false for every
`UploadedFile` object (an `io.BytesIO` subclass defines neither `__bool__`
nor `__len__`, so it is always truthy regardless of content) and true for
`None`, hence the plain `Option` match. -/
def convert_image (decode : List Nat → Option PILImage) (saveRes : SaveOutcome)
    (input_file : Option UploadedFile) (output_format : PyStr) : ImageOutcome :=
  match input_file with
  | none => ⟨none, some AppError.emptyInput, false, none⟩
  | some f =>
    if f.content.length > 10 * 1024 * 1024 then
      ⟨none, some AppError.fileTooLarge, false, none⟩
    else
      match decode f.content with
      | none => ⟨none, some AppError.unreadableImage, true, none⟩
      | some img =>
        if img.width > 10000 ∨ img.height > 10000 then
          ⟨none, some AppError.dimensionTooLarge, true, none⟩
        else
          let output_filename := derivedName f.name output_format
          let sc : SaveCall := ⟨output_filename, imgSaveMode output_format img.mode,
            imgQuality output_format⟩
          match saveRes with
          | SaveOutcome.ok => ⟨some output_filename, none, true, some sc⟩
          | SaveOutcome.permDenied => ⟨none, some AppError.permissionDenied, true, some sc⟩
          | SaveOutcome.failMsg m => ⟨none, some (AppError.conversionFailed m), true, some sc⟩

/-- A value of a keyword argument passed to `ffmpeg.output`: a string or an
integer, as in the Python dictionaries of `app.py`. -/
inductive PyVal where
  | s (v : String)
  | i (v : Int)
deriving DecidableEq

/-- The keyword arguments `convert_video` passes to `ffmpeg.output`
(lines 94-118): the seven conditional dictionary expansions in source
order; conditions compare `output_format.lower()` against the format
names, and at most one dictionary is nonempty for a given format. -/
def videoKwargs (fmt : PyStr) : List (String × PyVal) :=
  (if pyLower fmt = "mp4".data then
    [("c:v", PyVal.s "libx264"), ("preset", PyVal.s "slow"), ("crf", PyVal.i 18)] else [])
  ++ (if pyLower fmt = "gif".data then [("c:v", PyVal.s "gif")] else [])
  ++ (if pyLower fmt = "mkv".data then
    [("c:v", PyVal.s "libx264"), ("preset", PyVal.s "slow"), ("crf", PyVal.i 18),
     ("format", PyVal.s "matroska")] else [])
  ++ (if pyLower fmt = "webm".data then
    [("c:v", PyVal.s "libvpx-vp9"), ("crf", PyVal.i 30)] else [])
  ++ (if pyLower fmt = "flv".data then [("c:v", PyVal.s "flv")] else [])
  ++ (if pyLower fmt = "wmv".data then [("c:v", PyVal.s "wmv2")] else [])
  ++ (if pyLower fmt = "m4v".data then
    [("c:v", PyVal.s "libx264"), ("preset", PyVal.s "slow"), ("crf", PyVal.i 18),
     ("format", PyVal.s "mp4")] else [])

/-- The ffmpeg invocation constructed by `convert_video`: input path,
output path, and the keyword arguments of `ffmpeg.output`. -/
structure FfmpegCmd where
  input : PyStr
  output : PyStr
  kwargs : List (String × PyVal)
deriving DecidableEq

/-- Behavior of the external ffmpeg child process: clean exit, or nonzero
exit together with the text the child wrote to its stderr stream.  The
program calls `ffmpeg.run(stream)` at line 119 without
`capture_stderr=True`, so on nonzero exit the raised `ffmpeg.Error`
carries `stderr = None`: the text the child wrote is never captured (it
goes to the parent process's own stderr instead). -/
inductive EncResult where
  | ok
  | err (stderr : String)
deriving DecidableEq

/-- Filesystem-effect events of one `convert_video` call, in order:
creation of the `tempfile.TemporaryDirectory`, materialization of the
uploaded bytes to disk, the ffmpeg invocation, the `shutil.copy` to the
stable location, and the recursive removal of the temporary directory
performed by the context manager's exit on every path. -/
inductive VEvent where
  | createTmpDir
  | writeFile (path : PyStr) (data : List Nat)
  | encode (cmd : FfmpegCmd)
  | copyFile (src dst : PyStr)
  | removeTmpDir
deriving DecidableEq

/-- Observable outcome of one `convert_video` call: returned value,
`st.error` raised if any, and the ordered filesystem-effect trace. -/
structure VideoOutcome where
  result : Option PyStr
  err : Option AppError
  events : List VEvent
deriving DecidableEq

/-- `secure_filename(input_file.name)` (line 74). -/
def videoInputName (f : UploadedFile) : PyStr := secure_filename f.name

/-- `os.path.join(tmpdir, input_filename)` (line 75); the sanitized name
contains no separator, so the join is plain concatenation. -/
def videoInputPath (tmpdir : PyStr) (f : UploadedFile) : PyStr :=
  tmpdir ++ '/' :: videoInputName f

/-- `f"{os.path.splitext(input_filename)[0]}.{output_format.lower()}"`
(lines 87-89). -/
def videoOutputName (f : UploadedFile) (fmt : PyStr) : PyStr :=
  (splitext (videoInputName f)).1 ++ '.' :: pyLower fmt

/-- `os.path.join(tmpdir, output_filename)` (line 90). -/
def videoOutputPath (tmpdir : PyStr) (f : UploadedFile) (fmt : PyStr) : PyStr :=
  tmpdir ++ '/' :: videoOutputName f fmt

/-- The ffmpeg invocation built by lines 94-118 of `app.py`. -/
def videoCmd (tmpdir : PyStr) (f : UploadedFile) (fmt : PyStr) : FfmpegCmd :=
  ⟨videoInputPath tmpdir f, videoOutputPath tmpdir f fmt, videoKwargs fmt⟩

/-- Embedding of `convert_video` (`app.py` lines 66-132).  `runFF` is the
external ffmpeg child-process oracle, `tmpdir` the directory name handed
out by `tempfile.TemporaryDirectory`, `cwd` the process's working
directory.  The `open(input_path, "wb")` of line 77 fails exactly when the
sanitized filename is empty (e.g. an upload named `.`): `input_path` is
then `tmpdir + "/"`, an existing directory, so `open` raises
`IsADirectoryError` before `input_file.read()` runs — caught by the
`except Exception` of lines 130-132 as ConversionFailed, with the stream
position unchanged.  Otherwise `input_file.read()` consumes the stream
from its current position to the end, so the returned stream state has
`pos` at end-of-stream.  On nonzero encoder exit the raised `ffmpeg.Error`
carries `stderr = None` (no `capture_stderr=True` at line 119), so the
child's stderr text is dropped.  The context manager emits `removeTmpDir`
on every exit path, including the `return None` inside the `with` block
and exception propagation out of it. -/
def convert_video (runFF : FfmpegCmd → EncResult) (cwd tmpdir : PyStr)
    (input_file : UploadedFile) (output_format : PyStr) : VideoOutcome × UploadedFile :=
  if videoInputName input_file = [] then
    (⟨none,
      some (AppError.conversionFailed (isADirectoryMsg (videoInputPath tmpdir input_file))),
      [VEvent.createTmpDir, VEvent.removeTmpDir]⟩, input_file)
  else
    let data := input_file.content.drop input_file.pos
    let consumed : UploadedFile := ⟨input_file.content, input_file.content.length, input_file.name⟩
    let ev0 := [VEvent.createTmpDir, VEvent.writeFile (videoInputPath tmpdir input_file) data]
    if data.length > 10 * 1024 * 1024 then
      (⟨none, some AppError.fileTooLarge, ev0 ++ [VEvent.removeTmpDir]⟩, consumed)
    else
      match runFF (videoCmd tmpdir input_file output_format) with
      | EncResult.err _ =>
        (⟨none, some (AppError.encodeFailed none),
          ev0 ++ [VEvent.encode (videoCmd tmpdir input_file output_format),
                  VEvent.removeTmpDir]⟩, consumed)
      | EncResult.ok =>
        let final := cwd ++ '/' :: videoOutputName input_file output_format
        (⟨some final, none,
          ev0 ++ [VEvent.encode (videoCmd tmpdir input_file output_format),
                  VEvent.copyFile (videoOutputPath tmpdir input_file output_format) final,
                  VEvent.removeTmpDir]⟩, consumed)


/-! ## Helper lemmas (shared) -/

/-- Characterization of a recorded `img.save` call: it can only arise after a
successful decode, and its fields are the derived filename, the normalized
color mode, and the quality policy. -/
theorem convert_image_saved_spec (decode : List Nat → Option PILImage) (saveRes : SaveOutcome)
    (f : UploadedFile) (fmt : PyStr) (call : SaveCall)
    (hs : (convert_image decode saveRes (some f) fmt).saved = some call) :
    ∃ img, decode f.content = some img ∧
      call = ⟨derivedName f.name fmt, imgSaveMode fmt img.mode, imgQuality fmt⟩ := by
  simp only [convert_image] at hs
  split at hs
  · simp at hs
  · split at hs
    · simp at hs
    · rename_i img heq
      split at hs
      · simp at hs
      · cases saveRes <;> simp only [Option.some.injEq] at hs <;> exact ⟨img, heq, hs.symm⟩

/-- The ASCII lowercase map never produces a path separator from a
non-separator character. -/
theorem lowerCh_eq_sep {c : Char} (h : lowerCh c = '/') : c = '/' := by
  unfold lowerCh at h
  cases hf : asciiPairs.find? (fun p => p.1 = c) with
  | none =>
    rw [hf] at h
    exact h
  | some q =>
    rw [hf] at h
    have h2 : q.2 = '/' := h
    have hq : q ∈ asciiPairs := List.mem_of_find?_eq_some hf
    exfalso
    fin_cases hq <;> simp_all

/-- The stem returned by `splitext` only contains characters of the input. -/
theorem splitext_fst_subset (p : PyStr) : (splitext p).1 ⊆ p := by
  simp only [splitext]
  split
  · split
    · exact List.take_subset _ _
    · exact fun a h => h
  · exact fun a h => h

/-- A derived output filename contains no path separator when neither the
source name nor the format string does. -/
theorem derivedName_no_sep {name fmt : PyStr} (h1 : '/' ∉ name) (h2 : '/' ∉ fmt) :
    '/' ∉ derivedName name fmt := by
  unfold derivedName
  intro hmem
  rcases List.mem_append.mp hmem with h | h
  · exact h1 (splitext_fst_subset name h)
  · rcases List.mem_cons.mp h with h | h
    · exact absurd h (by decide)
    · rcases List.mem_map.mp h with ⟨c, hc, hlc⟩
      exact h2 (lowerCh_eq_sep hlc ▸ hc)

/-- Dropping a satisfied prefix from an appended list. -/
theorem dropWhile_append_of_all {l r : PyStr} {P : Char → Bool} (h : ∀ x ∈ l, P x = true) :
    (l ++ r).dropWhile P = r.dropWhile P := by
  induction l with
  | nil => rfl
  | cons a t ih =>
    rw [List.cons_append, List.dropWhile_cons]
    rw [h a (List.mem_cons_self a t)]
    simp only [if_true]
    exact ih (fun x hx => h x (List.mem_cons_of_mem a hx))

/-- The directory of `cwd/p` is `cwd` when the final component `p` has no
separator. -/
theorem dirOf_append {cwd p : PyStr} (h : '/' ∉ p) : dirOf (cwd ++ '/' :: p) = cwd := by
  unfold dirOf
  rw [List.reverse_append, List.reverse_cons]
  rw [List.append_assoc]
  rw [dropWhile_append_of_all (fun x hx => by
    simp only [decide_eq_true_eq]
    intro hxe
    exact h (hxe ▸ List.mem_reverse.mp hx))]
  simp [List.dropWhile_cons]

/-- A separator-free relative path resolves to a direct child of `cwd`. -/
theorem resolvePath_of_no_sep {cwd p : PyStr} (h : '/' ∉ p) :
    resolvePath cwd p = cwd ++ '/' :: p := by
  unfold resolvePath
  rw [if_neg]
  intro hh
  cases p with
  | nil => simp at hh
  | cons a t =>
    simp only [List.head?_cons, Option.some.injEq] at hh
    exact h (hh ▸ List.mem_cons_self a t)

/-! ## Claims -/

/-- C1 counterexample: an oversize upload does not always yield
FileTooLarge from `convert_video`.  An upload named `.` sanitizes to the
empty filename, so the `open` of line 77 raises `IsADirectoryError` on
`tmpdir + "/"` before the on-disk size check of line 82 ever runs, and the
call returns the ConversionFailed error of the generic handler — even
though the content exceeds 10 MiB.  (The encoder is still never invoked.) -/
theorem oversize_dot_name_not_fileTooLarge :
    (convert_video (fun _ => EncResult.ok) "/app".data "/tmp/t".data
        ⟨List.replicate (10 * 1024 * 1024 + 1) 0, 0, ".".data⟩ "MP4".data).1.err
      ≠ some AppError.fileTooLarge
    ∧ (convert_video (fun _ => EncResult.ok) "/app".data "/tmp/t".data
        ⟨List.replicate (10 * 1024 * 1024 + 1) 0, 0, ".".data⟩ "MP4".data).1.err
      = some (AppError.conversionFailed (isADirectoryMsg "/tmp/t/".data))
    ∧ (List.replicate (10 * 1024 * 1024 + 1) (0 : Nat)).length > 10 * 1024 * 1024 := by
  have hn : videoInputName ⟨List.replicate (10 * 1024 * 1024 + 1) 0, 0, ".".data⟩ = [] := by
    decide
  refine ⟨?_, ?_, by rw [List.length_replicate]; exact Nat.lt_succ_self _⟩
  · simp only [convert_video]
    rw [if_pos hn]
    decide
  · simp only [convert_video]
    rw [if_pos hn]
    decide

/-- C1 (amended): for every input whose byte length exceeds 10 MiB
(10 × 1024 × 1024 bytes), `convert_image` fails with FileTooLarge and
never reaches `Image.open` or `img.save`; `convert_video` fails with
FileTooLarge provided the uploaded filename survives sanitization (a
nonempty `secure_filename`), and in every case — sanitized-empty name
included — the external encoder is never invoked.  A name sanitizing to
empty fails earlier, at the `open` of the materialization path, with
ConversionFailed instead of FileTooLarge. -/
theorem fileTooLarge_blocks_all_encoding
    (decode : List Nat → Option PILImage) (saveRes : SaveOutcome)
    (runFF : FfmpegCmd → EncResult) (cwd tmpdir : PyStr)
    (f : UploadedFile) (ifmt vfmt : PyStr)
    (hsize : f.content.length > 10 * 1024 * 1024) (hpos : f.pos = 0) :
    ((convert_image decode saveRes (some f) ifmt).result = none
      ∧ (convert_image decode saveRes (some f) ifmt).err = some AppError.fileTooLarge
      ∧ (convert_image decode saveRes (some f) ifmt).decodeAttempted = false
      ∧ (convert_image decode saveRes (some f) ifmt).saved = none)
    ∧ ((videoInputName f ≠ [] →
        (convert_video runFF cwd tmpdir f vfmt).1.result = none
        ∧ (convert_video runFF cwd tmpdir f vfmt).1.err = some AppError.fileTooLarge)
      ∧ ∀ c, VEvent.encode c ∉ (convert_video runFF cwd tmpdir f vfmt).1.events) := by
  have hlen : (f.content.drop f.pos).length > 10 * 1024 * 1024 := by
    rw [hpos, List.drop_zero]; exact hsize
  refine ⟨?_, ?_, ?_⟩
  · simp only [convert_image]
    rw [if_pos hsize]
    exact ⟨rfl, rfl, rfl, rfl⟩
  · intro hsan
    simp only [convert_video]
    rw [if_neg hsan, if_pos hlen]
    exact ⟨rfl, rfl⟩
  · intro c
    simp only [convert_video]
    by_cases hsan : videoInputName f = []
    · rw [if_pos hsan]
      simp
    · rw [if_neg hsan, if_pos hlen]
      simp

/-- Witness for C1 at a concrete 10 MiB + 1 byte upload whose filename
survives sanitization. -/
theorem fileTooLarge_blocks_all_encoding_witness :
    ((convert_image (fun _ => none) SaveOutcome.ok
        (some ⟨List.replicate (10 * 1024 * 1024 + 1) 0, 0, "a.mp4".data⟩) "PNG".data).result = none
      ∧ (convert_image (fun _ => none) SaveOutcome.ok
        (some ⟨List.replicate (10 * 1024 * 1024 + 1) 0, 0, "a.mp4".data⟩) "PNG".data).err
          = some AppError.fileTooLarge
      ∧ (convert_image (fun _ => none) SaveOutcome.ok
        (some ⟨List.replicate (10 * 1024 * 1024 + 1) 0, 0, "a.mp4".data⟩) "PNG".data).decodeAttempted
          = false
      ∧ (convert_image (fun _ => none) SaveOutcome.ok
        (some ⟨List.replicate (10 * 1024 * 1024 + 1) 0, 0, "a.mp4".data⟩) "PNG".data).saved = none)
    ∧ ((convert_video (fun _ => EncResult.ok) "/app".data "/tmp/t".data
        ⟨List.replicate (10 * 1024 * 1024 + 1) 0, 0, "a.mp4".data⟩ "MP4".data).1.result = none
      ∧ (convert_video (fun _ => EncResult.ok) "/app".data "/tmp/t".data
        ⟨List.replicate (10 * 1024 * 1024 + 1) 0, 0, "a.mp4".data⟩ "MP4".data).1.err
          = some AppError.fileTooLarge)
    ∧ (∀ c, VEvent.encode c ∉ (convert_video (fun _ => EncResult.ok) "/app".data "/tmp/t".data
        ⟨List.replicate (10 * 1024 * 1024 + 1) 0, 0, "a.mp4".data⟩ "MP4".data).1.events) :=
  have h := fileTooLarge_blocks_all_encoding (fun _ => none) SaveOutcome.ok (fun _ => EncResult.ok)
    "/app".data "/tmp/t".data ⟨List.replicate (10 * 1024 * 1024 + 1) 0, 0, "a.mp4".data⟩
    "PNG".data "MP4".data (by rw [List.length_replicate]; exact Nat.lt_succ_self _) rfl
  ⟨h.1, h.2.1 (by decide), h.2.2⟩

/-- C2: the encode parameters selected by `convert_video` per target format
are exactly the FormatProfile table of the spec: mp4 → the x264 H.264
encoder at CRF 18 with preset slow; m4v → the same plus container override
mp4; mkv → the same plus container override matroska; webm → the VP9
encoder at CRF 30 with no preset; gif/flv/wmv → codec only; and any format
outside the table gets no explicit parameters at all. -/
theorem videoKwargs_matches_formatProfile :
    (∀ fmt, pyLower fmt = "mp4".data → videoKwargs fmt =
      [("c:v", PyVal.s "libx264"), ("preset", PyVal.s "slow"), ("crf", PyVal.i 18)])
    ∧ (∀ fmt, pyLower fmt = "m4v".data → videoKwargs fmt =
      [("c:v", PyVal.s "libx264"), ("preset", PyVal.s "slow"), ("crf", PyVal.i 18),
       ("format", PyVal.s "mp4")])
    ∧ (∀ fmt, pyLower fmt = "mkv".data → videoKwargs fmt =
      [("c:v", PyVal.s "libx264"), ("preset", PyVal.s "slow"), ("crf", PyVal.i 18),
       ("format", PyVal.s "matroska")])
    ∧ (∀ fmt, pyLower fmt = "webm".data → videoKwargs fmt =
      [("c:v", PyVal.s "libvpx-vp9"), ("crf", PyVal.i 30)])
    ∧ (∀ fmt, pyLower fmt = "gif".data → videoKwargs fmt = [("c:v", PyVal.s "gif")])
    ∧ (∀ fmt, pyLower fmt = "flv".data → videoKwargs fmt = [("c:v", PyVal.s "flv")])
    ∧ (∀ fmt, pyLower fmt = "wmv".data → videoKwargs fmt = [("c:v", PyVal.s "wmv2")])
    ∧ (∀ fmt, pyLower fmt ∉
        ["mp4".data, "gif".data, "mkv".data, "webm".data, "flv".data, "wmv".data, "m4v".data] →
        videoKwargs fmt = []) := by
  refine ⟨?_, ?_, ?_, ?_, ?_, ?_, ?_, ?_⟩
  · intro fmt h; unfold videoKwargs; rw [h]; decide
  · intro fmt h; unfold videoKwargs; rw [h]; decide
  · intro fmt h; unfold videoKwargs; rw [h]; decide
  · intro fmt h; unfold videoKwargs; rw [h]; decide
  · intro fmt h; unfold videoKwargs; rw [h]; decide
  · intro fmt h; unfold videoKwargs; rw [h]; decide
  · intro fmt h; unfold videoKwargs; rw [h]; decide
  · intro fmt h
    simp only [List.mem_cons, List.not_mem_nil, or_false, not_or] at h
    obtain ⟨h1, h2, h3, h4, h5, h6, h7⟩ := h
    unfold videoKwargs
    rw [if_neg h1, if_neg h2, if_neg h3, if_neg h4, if_neg h5, if_neg h6, if_neg h7]
    rfl

/-- Witness for C2 at the UI strings `MP4` (in the table) and `AVI` (not in
the table). -/
theorem videoKwargs_matches_formatProfile_witness :
    videoKwargs "MP4".data =
      [("c:v", PyVal.s "libx264"), ("preset", PyVal.s "slow"), ("crf", PyVal.i 18)]
    ∧ videoKwargs "AVI".data = [] :=
  ⟨videoKwargs_matches_formatProfile.1 "MP4".data (by decide),
   videoKwargs_matches_formatProfile.2.2.2.2.2.2.2 "AVI".data (by decide)⟩

/-- C3: whenever `convert_image` issues a save under the JPEG target
format, the color mode of the saved image is RGB, whatever mode the
decoded input had (non-RGB modes are converted before saving). -/
theorem jpeg_target_saves_rgb (decode : List Nat → Option PILImage) (saveRes : SaveOutcome)
    (f : UploadedFile) (fmt : PyStr) (call : SaveCall)
    (hs : (convert_image decode saveRes (some f) fmt).saved = some call)
    (hfmt : pyUpper fmt = "JPEG".data) :
    call.mode = "RGB" := by
  obtain ⟨img, -, rfl⟩ := convert_image_saved_spec decode saveRes f fmt call hs
  simp only [imgSaveMode, hfmt]
  split
  · rfl
  · rename_i hmode
    simp only [ne_eq, not_and, not_not, forall_const] at hmode
    exact hmode

/-- Witness for C3: an RGBA input saved under the JPEG target comes out
with mode RGB. -/
theorem jpeg_target_saves_rgb_witness :
    (⟨"a.jpeg".data, "RGB", some 95⟩ : SaveCall).mode = "RGB" :=
  jpeg_target_saves_rgb (fun _ => some ⟨3, 3, "RGBA"⟩) SaveOutcome.ok
    ⟨[0], 0, "a.png".data⟩ "JPEG".data ⟨"a.jpeg".data, "RGB", some 95⟩ (by decide) (by decide)

/-- C4: the explicit quality parameter passed to the encoder by
`convert_image` is exactly 95 for the JPEG target, 90 for the WEBP target,
and absent for every other target format. -/
theorem image_save_quality_policy (decode : List Nat → Option PILImage) (saveRes : SaveOutcome)
    (f : UploadedFile) (fmt : PyStr) (call : SaveCall)
    (hs : (convert_image decode saveRes (some f) fmt).saved = some call) :
    call.quality = (if pyUpper fmt = "JPEG".data then some 95
      else if pyUpper fmt = "WEBP".data then some 90 else none) := by
  obtain ⟨img, -, rfl⟩ := convert_image_saved_spec decode saveRes f fmt call hs
  simp only [imgQuality]
  by_cases hj : pyUpper fmt = "JPEG".data
  · have hw : ¬ pyUpper fmt = "WEBP".data := by rw [hj]; decide
    simp [hj, hw]
  · by_cases hw : pyUpper fmt = "WEBP".data <;> simp [hj, hw]

/-- Witness for C4 at the WEBP target (UI string `WebP`). -/
theorem image_save_quality_policy_witness :
    (⟨"a.webp".data, "RGB", some 90⟩ : SaveCall).quality =
      (if pyUpper "WebP".data = "JPEG".data then some 95
        else if pyUpper "WebP".data = "WEBP".data then some 90 else none) :=
  image_save_quality_policy (fun _ => some ⟨3, 3, "RGB"⟩) SaveOutcome.ok
    ⟨[0], 0, "a.png".data⟩ "WebP".data ⟨"a.webp".data, "RGB", some 90⟩ (by decide)

/-- C5 (code bug): on nonzero encoder exit the program does not surface
the child's stderr.  Line 119 calls `ffmpeg.run(stream)` without
`capture_stderr=True`, so the raised `ffmpeg.Error` has `stderr = None`
and line 128 — which interpolates `e.stderr` precisely because it means to
show the encoder's stderr — displays `FFmpeg error: None` whatever the
child wrote.  At the input below the child writes `boom` to stderr, yet
the returned failure carries no stderr text and the displayed message is
`FFmpeg error: None`, not `FFmpeg error: boom`. -/
theorem encode_failure_drops_stderr :
    (convert_video (fun _ => EncResult.err "boom") "/app".data "/tmp/t".data
        ⟨[0], 0, "a.mov".data⟩ "MP4".data).1.err = some (AppError.encodeFailed none)
    ∧ (convert_video (fun _ => EncResult.err "boom") "/app".data "/tmp/t".data
        ⟨[0], 0, "a.mov".data⟩ "MP4".data).1.err ≠ some (AppError.encodeFailed (some "boom"))
    ∧ (convert_video (fun _ => EncResult.err "boom") "/app".data "/tmp/t".data
        ⟨[0], 0, "a.mov".data⟩ "MP4".data).1.result = none
    ∧ ffmpegErrorText none = "FFmpeg error: None"
    ∧ ffmpegErrorText none ≠ "FFmpeg error: " ++ "boom" :=
  ⟨by decide, by decide, by decide, by decide, by decide⟩

/-- C6 counterexample: a 0-byte upload does NOT produce the EmptyInput
failure.  The presence test `if not input_file` is false for every
`UploadedFile` object (an `io.BytesIO` subclass has no `__bool__` or
`__len__`, so it is truthy even when empty); the 0-byte upload passes the
presence and size checks, reaches `Image.open`, and fails there with the
UnreadableImage error instead. -/
theorem zero_byte_upload_not_emptyInput :
    (convert_image (fun _ => none) SaveOutcome.ok
      (some ⟨[], 0, "a.png".data⟩) "PNG".data).err ≠ some AppError.emptyInput
    ∧ (convert_image (fun _ => none) SaveOutcome.ok
      (some ⟨[], 0, "a.png".data⟩) "PNG".data).err = some AppError.unreadableImage
    ∧ (convert_image (fun _ => none) SaveOutcome.ok
      (some ⟨[], 0, "a.png".data⟩) "PNG".data).decodeAttempted = true :=
  ⟨by decide, by decide, by decide⟩

/-- C6 (amended): the EmptyInput failure is returned exactly when no file
object was supplied (`None`); a supplied 0-byte upload never yields
EmptyInput — it passes the presence and size checks and fails at the
decode step with UnreadableImage (PIL cannot identify an empty stream). -/
theorem emptyInput_only_for_missing_file (decode : List Nat → Option PILImage)
    (saveRes : SaveOutcome) (f : UploadedFile) (fmt : PyStr) :
    (convert_image decode saveRes (some f) fmt).err ≠ some AppError.emptyInput
    ∧ (f.content = [] → decode f.content = none →
        (convert_image decode saveRes (some f) fmt).err = some AppError.unreadableImage
        ∧ (convert_image decode saveRes (some f) fmt).decodeAttempted = true)
    ∧ (convert_image decode saveRes none fmt).err = some AppError.emptyInput := by
  refine ⟨?_, fun hc hd => ?_, rfl⟩
  · simp only [convert_image]
    split
    · simp
    · split
      · simp
      · split
        · simp
        · split <;> simp
  · have hsz : ¬ f.content.length > 10 * 1024 * 1024 := by rw [hc]; simp
    simp only [convert_image]
    rw [if_neg hsz, hd]
    exact ⟨rfl, rfl⟩

/-- Witness for the amended C6 at a concrete 0-byte upload. -/
theorem emptyInput_only_for_missing_file_witness :
    (convert_image (fun _ => none) SaveOutcome.ok
      (some ⟨[], 0, "b.png".data⟩) "PNG".data).err ≠ some AppError.emptyInput
    ∧ (([] : List Nat) = [] → (none : Option PILImage) = none →
        (convert_image (fun _ => none) SaveOutcome.ok
          (some ⟨[], 0, "b.png".data⟩) "PNG".data).err = some AppError.unreadableImage
        ∧ (convert_image (fun _ => none) SaveOutcome.ok
          (some ⟨[], 0, "b.png".data⟩) "PNG".data).decodeAttempted = true)
    ∧ (convert_image (fun _ => none) SaveOutcome.ok none "PNG".data).err
        = some AppError.emptyInput :=
  emptyInput_only_for_missing_file (fun _ => none) SaveOutcome.ok ⟨[], 0, "b.png".data⟩ "PNG".data

/-- C7: a path is returned as the success result only after the encoder has
confirmed the output: if `convert_video` returns a path, the external
encoder exited cleanly and the output file was copied to that stable path
(and no error was raised); every failure path of either converter returns
`None`, never a path to a partial output. -/
theorem success_requires_confirmed_encode (decode : List Nat → Option PILImage)
    (saveRes : SaveOutcome) (runFF : FfmpegCmd → EncResult) (cwd tmpdir : PyStr)
    (f : UploadedFile) (ifmt vfmt : PyStr) :
    (∀ p, (convert_video runFF cwd tmpdir f vfmt).1.result = some p →
        runFF (videoCmd tmpdir f vfmt) = EncResult.ok
        ∧ VEvent.copyFile (videoOutputPath tmpdir f vfmt) p
            ∈ (convert_video runFF cwd tmpdir f vfmt).1.events
        ∧ (convert_video runFF cwd tmpdir f vfmt).1.err = none)
    ∧ ((convert_video runFF cwd tmpdir f vfmt).1.err ≠ none →
        (convert_video runFF cwd tmpdir f vfmt).1.result = none)
    ∧ (∀ q, (convert_image decode saveRes (some f) ifmt).result = some q →
        (∃ sc, (convert_image decode saveRes (some f) ifmt).saved = some sc ∧ sc.path = q)
        ∧ (convert_image decode saveRes (some f) ifmt).err = none)
    ∧ ((convert_image decode saveRes (some f) ifmt).err ≠ none →
        (convert_image decode saveRes (some f) ifmt).result = none) := by
  have hv : (∀ p, (convert_video runFF cwd tmpdir f vfmt).1.result = some p →
      runFF (videoCmd tmpdir f vfmt) = EncResult.ok
      ∧ VEvent.copyFile (videoOutputPath tmpdir f vfmt) p
          ∈ (convert_video runFF cwd tmpdir f vfmt).1.events
      ∧ (convert_video runFF cwd tmpdir f vfmt).1.err = none)
      ∧ ((convert_video runFF cwd tmpdir f vfmt).1.err ≠ none →
        (convert_video runFF cwd tmpdir f vfmt).1.result = none) := by
    simp only [convert_video]
    split
    · exact ⟨fun p hp => by simp at hp, fun _ => rfl⟩
    · split
      · exact ⟨fun p hp => by simp at hp, fun _ => rfl⟩
      · split
        · exact ⟨fun p hp => by simp at hp, fun _ => rfl⟩
        · rename_i hok
          refine ⟨fun p hp => ?_, fun h => absurd rfl h⟩
          simp only [Option.some.injEq] at hp
          subst hp
          exact ⟨hok, by simp, rfl⟩
  have hi : (∀ q, (convert_image decode saveRes (some f) ifmt).result = some q →
      (∃ sc, (convert_image decode saveRes (some f) ifmt).saved = some sc ∧ sc.path = q)
      ∧ (convert_image decode saveRes (some f) ifmt).err = none)
      ∧ ((convert_image decode saveRes (some f) ifmt).err ≠ none →
        (convert_image decode saveRes (some f) ifmt).result = none) := by
    simp only [convert_image]
    split
    · exact ⟨fun q hq => by simp at hq, fun _ => rfl⟩
    · split
      · exact ⟨fun q hq => by simp at hq, fun _ => rfl⟩
      · split
        · exact ⟨fun q hq => by simp at hq, fun _ => rfl⟩
        · split
          · refine ⟨fun q hq => ?_, fun h => absurd rfl h⟩
            simp only [Option.some.injEq] at hq
            subst hq
            exact ⟨⟨_, rfl, rfl⟩, rfl⟩
          · exact ⟨fun q hq => by simp at hq, fun _ => rfl⟩
          · exact ⟨fun q hq => by simp at hq, fun _ => rfl⟩
  exact ⟨hv.1, hv.2, hi.1, hi.2⟩

/-- Witness for C7 on a concrete successful video conversion. -/
theorem success_requires_confirmed_encode_witness :
    (fun _ => EncResult.ok) (videoCmd "/tmp/t".data ⟨[0], 0, "a.png".data⟩ "MP4".data)
      = EncResult.ok
    ∧ VEvent.copyFile "/tmp/t/a.mp4".data "/app/a.mp4".data
        ∈ (convert_video (fun _ => EncResult.ok) "/app".data "/tmp/t".data
          ⟨[0], 0, "a.png".data⟩ "MP4".data).1.events
    ∧ (convert_video (fun _ => EncResult.ok) "/app".data "/tmp/t".data
        ⟨[0], 0, "a.png".data⟩ "MP4".data).1.err = none :=
  (success_requires_confirmed_encode (fun _ => none) SaveOutcome.ok (fun _ => EncResult.ok)
    "/app".data "/tmp/t".data ⟨[0], 0, "a.png".data⟩ "PNG".data "MP4".data).1
    "/app/a.mp4".data (by decide)

/-- C8: on every exit path of `convert_video` (size failure, encoder
failure, or success) the temporary workspace removal is the last recorded
effect — the `tempfile.TemporaryDirectory` context manager removes the
directory and everything in it recursively on success, on the early
`return None`, and on exception propagation alike — and on success the
output file is copied out of the workspace before that teardown. -/
theorem tmpdir_removed_on_every_path (runFF : FfmpegCmd → EncResult) (cwd tmpdir : PyStr)
    (f : UploadedFile) (fmt : PyStr) :
    ∃ l, (convert_video runFF cwd tmpdir f fmt).1.events = l ++ [VEvent.removeTmpDir]
      ∧ ∀ p, (convert_video runFF cwd tmpdir f fmt).1.result = some p →
          VEvent.copyFile (videoOutputPath tmpdir f fmt) p ∈ l := by
  simp only [convert_video]
  split
  · exact ⟨[VEvent.createTmpDir], rfl, by intro p hp; simp at hp⟩
  · split
    · exact ⟨_, rfl, by intro p hp; simp at hp⟩
    · split
      · exact ⟨[VEvent.createTmpDir, VEvent.writeFile (videoInputPath tmpdir f)
          (f.content.drop f.pos), VEvent.encode (videoCmd tmpdir f fmt)], rfl,
          by intro p hp; simp at hp⟩
      · refine ⟨[VEvent.createTmpDir, VEvent.writeFile (videoInputPath tmpdir f)
          (f.content.drop f.pos), VEvent.encode (videoCmd tmpdir f fmt),
          VEvent.copyFile (videoOutputPath tmpdir f fmt)
            (cwd ++ '/' :: videoOutputName f fmt)], by simp, ?_⟩
        intro p hp
        simp only [Option.some.injEq] at hp
        subst hp
        simp

/-- Witness for C8 on a concrete successful video conversion. -/
theorem tmpdir_removed_on_every_path_witness :
    ∃ l, (convert_video (fun _ => EncResult.ok) "/app".data "/tmp/t".data
        ⟨[0], 0, "b.png".data⟩ "MP4".data).1.events = l ++ [VEvent.removeTmpDir]
      ∧ ∀ p, (convert_video (fun _ => EncResult.ok) "/app".data "/tmp/t".data
          ⟨[0], 0, "b.png".data⟩ "MP4".data).1.result = some p →
          VEvent.copyFile (videoOutputPath "/tmp/t".data ⟨[0], 0, "b.png".data⟩ "MP4".data) p ∈ l :=
  tmpdir_removed_on_every_path (fun _ => EncResult.ok) "/app".data "/tmp/t".data
    ⟨[0], 0, "b.png".data⟩ "MP4".data

/-- C9 counterexample: the output of a successful image conversion is not
always written in the current working directory.  `convert_image` applies
no sanitization to the uploaded filename (unlike the video path), so the
uploaded name `/tmp/evil.png` under the JPEG target succeeds with the
derived name `/tmp/evil.jpeg`, an absolute path whose directory is `/tmp`,
not the working directory `/app`. -/
theorem image_output_escapes_cwd :
    (convert_image (fun _ => some ⟨2, 2, "RGB"⟩) SaveOutcome.ok
        (some ⟨[0], 0, "/tmp/evil.png".data⟩) "JPEG".data).result
      = some "/tmp/evil.jpeg".data
    ∧ resolvePath "/app".data "/tmp/evil.jpeg".data = "/tmp/evil.jpeg".data
    ∧ dirOf "/tmp/evil.jpeg".data ≠ "/app".data :=
  ⟨by decide, by decide, by decide⟩

/-- C9 (amended): every successful image conversion returns the derived
filename — the source filename with its extension swapped for the
lowercase target-format extension — and that is exactly the path handed to
`img.save`; provided the uploaded filename (and the format string)
contains no path separator, the save target resolves to a direct child of
the process's current working directory.  A filename containing path
separators (never sanitized on the image path) escapes the working
directory. -/
theorem derived_filename_and_cwd_write (decode : List Nat → Option PILImage)
    (saveRes : SaveOutcome) (cwd : PyStr) (f : UploadedFile) (fmt : PyStr) (p : PyStr)
    (hp : (convert_image decode saveRes (some f) fmt).result = some p) :
    p = derivedName f.name fmt
    ∧ (∃ sc, (convert_image decode saveRes (some f) fmt).saved = some sc ∧ sc.path = p)
    ∧ ('/' ∉ f.name → '/' ∉ fmt →
        resolvePath cwd p = cwd ++ '/' :: p ∧ dirOf (resolvePath cwd p) = cwd) := by
  have hchar : p = derivedName f.name fmt
      ∧ (∃ sc, (convert_image decode saveRes (some f) fmt).saved = some sc ∧ sc.path = p) := by
    revert hp
    simp only [convert_image]
    split
    · intro hp; simp at hp
    · split
      · intro hp; simp at hp
      · split
        · intro hp; simp at hp
        · split
          · intro hp
            simp only [Option.some.injEq] at hp
            subst hp
            exact ⟨rfl, ⟨_, rfl, rfl⟩⟩
          · intro hp; simp at hp
          · intro hp; simp at hp
  refine ⟨hchar.1, hchar.2, fun hn hf => ?_⟩
  have hsep : '/' ∉ p := hchar.1 ▸ derivedName_no_sep hn hf
  have hres := @resolvePath_of_no_sep cwd p hsep
  exact ⟨hres, by rw [hres]; exact dirOf_append hsep⟩

/-- Witness for the amended C9 at a separator-free uploaded filename. -/
theorem derived_filename_and_cwd_write_witness :
    "photo.jpeg".data = derivedName "photo.png".data "JPEG".data
    ∧ (∃ sc, (convert_image (fun _ => some ⟨3, 3, "RGBA"⟩) SaveOutcome.ok
        (some ⟨[0], 0, "photo.png".data⟩) "JPEG".data).saved = some sc
        ∧ sc.path = "photo.jpeg".data)
    ∧ ('/' ∉ "photo.png".data → '/' ∉ "JPEG".data →
        resolvePath "/app".data "photo.jpeg".data = "/app".data ++ '/' :: "photo.jpeg".data
        ∧ dirOf (resolvePath "/app".data "photo.jpeg".data) = "/app".data) :=
  derived_filename_and_cwd_write (fun _ => some ⟨3, 3, "RGBA"⟩) SaveOutcome.ok "/app".data
    ⟨[0], 0, "photo.png".data⟩ "JPEG".data "photo.jpeg".data (by decide)

/-- C10 counterexample: the stream is not always left at end-of-stream.
For an upload named `.` the sanitized filename is empty, so the `open` of
line 77 raises before `input_file.read()` at line 78 runs: the call
returns with the stream position still at 0, not at the end of the 2-byte
content. -/
theorem dot_name_leaves_stream_position :
    (convert_video (fun _ => EncResult.ok) "/app".data "/tmp/t".data
        ⟨[0, 1], 0, ".".data⟩ "MP4".data).2.pos = 0
    ∧ (convert_video (fun _ => EncResult.ok) "/app".data "/tmp/t".data
        ⟨[0, 1], 0, ".".data⟩ "MP4".data).2.pos
      ≠ (⟨[0, 1], 0, ".".data⟩ : UploadedFile).content.length := by
  refine ⟨by decide, by decide⟩

/-- C10 (amended): provided the uploaded filename survives sanitization
(nonempty `secure_filename` — true of every upload the program can
materialize to disk), `convert_video` reads the stream to its end and
never restores the read position: the stream handed back has its position
at end-of-stream (content and name unchanged), so a second call on the
same unrewound handle materializes an empty on-disk input file.  A
filename sanitizing to empty (e.g. `.`) instead raises at the `open` of
line 77 before the read, leaving the position unchanged. -/
theorem video_stream_consumed_to_end (runFF : FfmpegCmd → EncResult) (cwd tmpdir : PyStr)
    (f : UploadedFile) (fmt : PyStr) (hsan : videoInputName f ≠ []) :
    (convert_video runFF cwd tmpdir f fmt).2.pos = f.content.length
    ∧ (convert_video runFF cwd tmpdir f fmt).2.content = f.content
    ∧ (convert_video runFF cwd tmpdir f fmt).2.name = f.name
    ∧ VEvent.writeFile (videoInputPath tmpdir ((convert_video runFF cwd tmpdir f fmt).2)) []
        ∈ (convert_video runFF cwd tmpdir ((convert_video runFF cwd tmpdir f fmt).2) fmt).1.events := by
  have h2 : (convert_video runFF cwd tmpdir f fmt).2
      = ⟨f.content, f.content.length, f.name⟩ := by
    simp only [convert_video]
    rw [if_neg hsan]
    split
    · rfl
    · split <;> rfl
  have hsan2 : videoInputName (⟨f.content, f.content.length, f.name⟩ : UploadedFile) ≠ [] :=
    hsan
  refine ⟨by rw [h2], by rw [h2], by rw [h2], ?_⟩
  rw [h2]
  simp only [convert_video, List.drop_length]
  rw [if_neg hsan2]
  split
  · simp at *
  · split <;> simp

/-- Witness for the amended C10 at a concrete upload whose filename
survives sanitization. -/
theorem video_stream_consumed_to_end_witness :
    (convert_video (fun _ => EncResult.ok) "/app".data "/tmp/t".data
        ⟨[7], 0, "c.png".data⟩ "MP4".data).2.pos = 1
    ∧ (convert_video (fun _ => EncResult.ok) "/app".data "/tmp/t".data
        ⟨[7], 0, "c.png".data⟩ "MP4".data).2.content = [7]
    ∧ (convert_video (fun _ => EncResult.ok) "/app".data "/tmp/t".data
        ⟨[7], 0, "c.png".data⟩ "MP4".data).2.name = "c.png".data
    ∧ VEvent.writeFile "/tmp/t/c.png".data []
        ∈ (convert_video (fun _ => EncResult.ok) "/app".data "/tmp/t".data
            ⟨[7], 1, "c.png".data⟩ "MP4".data).1.events :=
  video_stream_consumed_to_end (fun _ => EncResult.ok) "/app".data "/tmp/t".data
    ⟨[7], 0, "c.png".data⟩ "MP4".data (by decide)

end App
